import Mathlib

/-!
Shallow embedding of `src/sim_ranked.py` (World of Warships Ranked Battles
Monte Carlo simulator).

`sim_league` simulates one run through a league: a star counter starts at 0;
each game draws one uniform value (`random.random()`); a win
(`win_rate > cutoff`) increments the counter, may switch the current rate at
the highest stop, and may end the trial by returning the 1-based game number;
a loss decrements the counter unless the current total is a stop.  Python
floats are modelled as `ℚ`, the stream of draws as `draws : ℕ → ℚ`, and the
in-place `stops.append(0)` mutation by returning the mutated list as the
second component of the result.  The early `return` inside the loop is
modelled by freezing the loop state once `result` is set.
-/

namespace SimRanked

/-- State of the game loop in `sim_league`: the running star total
(`total_stars`), the current — reassignable — win rate (the local
`win_rate`), and `some g` once the function has returned at 1-based game `g`
(`none` while the loop is still running). -/
structure LeagueState where
  total_stars : ℤ
  win_rate : ℚ
  result : Option ℕ
  deriving Repr, DecidableEq

/-- `quals_stop = max(stops)` as computed after `stops.append(0)`
(src/sim_ranked.py lines 76-78).  Because `0` has been adjoined, Python's
`max` over the resulting collection agrees with `foldr max 0`. -/
def quals_stop_of (stops : List ℤ) : ℤ :=
  (stops ++ [0]).foldr max 0

/-- src/sim_ranked.py line 81: `if not quals_win_rate: quals_win_rate =
win_rate`.  Python's `not x` is true both for `None` and for `0.0`, so an
explicitly supplied `0` also falls back to `win_rate`. -/
def quals_rate_of (win_rate : ℚ) (quals_win_rate : Option ℚ) : ℚ :=
  match quals_win_rate with
  | none => win_rate
  | some q => if q = 0 then win_rate else q

/-- One iteration of the game loop (src/sim_ranked.py lines 88-104) acting on
the loop state; once `result` is set the state is frozen (the Python function
has already returned).  On a win the counter is incremented and then, in this
order, compared with `quals_stop` (rate switch, no return) and — only if that
test failed, because the source uses `elif` — with `stars` (return
`game + 1`).  On a loss the counter is decremented unless the current total
is a member of `stops`. -/
def leagueStep (stops : List ℤ) (quals_stop stars : ℤ) (quals_win_rate cutoff : ℚ)
    (game : ℕ) (s : LeagueState) : LeagueState :=
  if s.result = none then
    if s.win_rate > cutoff then
      if s.total_stars + 1 = quals_stop then
        { total_stars := s.total_stars + 1, win_rate := quals_win_rate, result := none }
      else if s.total_stars + 1 = stars then
        { s with total_stars := s.total_stars + 1, result := some (game + 1) }
      else
        { s with total_stars := s.total_stars + 1 }
    else
      if s.total_stars ∈ stops then s
      else { s with total_stars := s.total_stars - 1 }
  else s

/-- The loop state after `n` iterations of `leagueStep`, starting from zero
stars and the normal win rate; iteration `k` consumes draw `draws k` and
would return game number `k + 1`. -/
def leagueRun (stops : List ℤ) (quals_stop stars : ℤ) (quals_win_rate win_rate : ℚ)
    (draws : ℕ → ℚ) : ℕ → LeagueState
  | 0 => { total_stars := 0, win_rate := win_rate, result := none }
  | n + 1 =>
      leagueStep stops quals_stop stars quals_win_rate (draws n) n
        (leagueRun stops quals_stop stars quals_win_rate win_rate draws n)

/-- The loop state of `sim_league` after `k` games, with the setup of
src/sim_ranked.py lines 75-85 applied to the arguments: `0` appended to
`stops`, `quals_stop` the maximum, and the falsy default for
`quals_win_rate`. -/
def sim_league_trace (stars : ℤ) (stops : List ℤ) (win_rate : ℚ)
    (quals_win_rate : Option ℚ) (draws : ℕ → ℚ) (k : ℕ) : LeagueState :=
  leagueRun (stops ++ [0]) (quals_stop_of stops) stars
    (quals_rate_of win_rate quals_win_rate) win_rate draws k

/-- `sim_league` (src/sim_ranked.py lines 53-108).  First component: the
value returned by the Python function — the 1-based game number at which the
trial qualified, or `0` when the loop completes without qualifying.  Second
component: the caller's `stops` list as it stands after the call; the source
executes `stops.append(0)` on the caller's list (line 76) before shadowing
the local name with a set, so the caller's list has gained a trailing `0`. -/
def sim_league (stars : ℤ) (stops : List ℤ) (win_rate : ℚ) (quals_win_rate : Option ℚ)
    (games_played : ℕ) (draws : ℕ → ℚ) : ℕ × List ℤ :=
  ((sim_league_trace stars stops win_rate quals_win_rate draws games_played).result.getD 0,
    stops ++ [0])

/-- Number of `random.random()` draws consumed by one call of `sim_league`:
one per executed loop iteration, so `g` when the trial returns at game `g`
and `games_played` when the loop runs to completion. -/
def draws_consumed (stars : ℤ) (stops : List ℤ) (win_rate : ℚ) (quals_win_rate : Option ℚ)
    (games_played : ℕ) (draws : ℕ → ℚ) : ℕ :=
  match (sim_league_trace stars stops win_rate quals_win_rate draws games_played).result with
  | some g => g
  | none => games_played

/-- The rate switch of src/sim_ranked.py lines 96-97 fires at (0-based) game
`k`: the loop is still running, the draw is a win, and the post-increment
counter equals the qualification stop. -/
def rate_switch_fires (stars : ℤ) (stops : List ℤ) (win_rate : ℚ)
    (quals_win_rate : Option ℚ) (draws : ℕ → ℚ) (k : ℕ) : Prop :=
  (sim_league_trace stars stops win_rate quals_win_rate draws k).result = none ∧
  (sim_league_trace stars stops win_rate quals_win_rate draws k).win_rate > draws k ∧
  (sim_league_trace stars stops win_rate quals_win_rate draws k).total_stars + 1 =
    quals_stop_of stops

/-- The module-level default stops (src/sim_ranked.py line 50). -/
def DEFAULT_STOPS : List ℤ := [1, 2, 6, 14]

/-- The parsed command-line options as they stand after docopt and the raw
int/float conversions of src/sim_ranked.py lines 115-142: `stop` is the
(possibly empty) list of `--stop` values and `quals_win_rate` is `none` when
`--quals_win_rate` was absent (docopt yields `None`, which is falsy). -/
structure Options where
  stars : ℤ
  stop : List ℤ
  win_rate : ℚ
  quals_win_rate : Option ℚ
  games_played : ℤ
  runs : ℤ

/-- The values that reach the simulation loop when validation passes. -/
structure ValidatedInputs where
  stars : ℤ
  stops : List ℤ
  win_rate : ℚ
  quals_win_rate : ℚ
  games_played : ℤ
  runs : ℤ
  deriving Repr, DecidableEq

/-- Module-level input validation (src/sim_ranked.py lines 115-144), checks in
source order.  Note that line 136 re-tests `win_rate`, not `quals_win_rate`,
even though the error message names `quals_win_rate`; the embedding
reproduces that test verbatim. -/
def checkInputs (o : Options) : Except String ValidatedInputs :=
  if ¬ o.stars > 0 then
    Except.error "Please supply a positive integer for stars."
  else
    match (match o.stop with
      | [] => Except.ok DEFAULT_STOPS
      | x :: xs =>
          if List.foldl min x xs < 0 then
            Except.error "Please supply a valid list of stops."
          else Except.ok (x :: xs) : Except String (List ℤ)) with
    | Except.error e => Except.error e
    | Except.ok stops =>
      if o.win_rate < 0 ∨ o.win_rate > 1 then
        Except.error "The value of win_rate must be between 0 and 1 (inclusive)."
      else
        match (match o.quals_win_rate with
          | none => Except.ok o.win_rate
          | some q =>
              if o.win_rate < 0 ∨ o.win_rate > 1 then
                Except.error "The value of quals_win_rate must be between 0 and 1 (inclusive)."
              else Except.ok q : Except String ℚ) with
        | Except.error e => Except.error e
        | Except.ok qwr =>
          if ¬ o.games_played > 0 then
            Except.error "Please supply a positive integer for games_played."
          else if ¬ o.runs > 0 then
            Except.error "Please supply a positive integer for runs."
          else
            Except.ok { stars := o.stars, stops := stops, win_rate := o.win_rate,
                        quals_win_rate := qwr, games_played := o.games_played,
                        runs := o.runs }

/-- C1 counterexample.  Take `stars = 1`, `stops = [1]` (so the qualification
checkpoint equals the target), `win_rate = 1`, one game, and a draw sequence
whose first draw is a win.  The win raises the counter to the common value
`1`, yet `sim_league` returns `0`, not the game number `1`: the source's
`elif` gives the checkpoint-switch check priority and skips the
qualification check, so the claimed immediate return does not happen. -/
theorem C1_counterexample :
    quals_stop_of [1] = (1 : ℤ) ∧
    (sim_league_trace 1 [1] 1 none (fun _ => 0) 1).total_stars = 1 ∧
    (sim_league 1 [1] 1 none 1 (fun _ => 0)).1 ≠ 1 := by
  refine ⟨by decide, by decide, by decide⟩

/-- C2: the code at the failing input.  With `quals_win_rate` explicitly `0`,
`win_rate = 1`, `stops = [1]`, `stars = 3` and winning draws, the spec says
every game after the counter reaches the checkpoint `1` uses rate `0`, so the
trial could never win again and must return `0`; the code's falsy test
(`if not quals_win_rate`) treats the explicit `0` as unspecified, keeps
playing at rate `1`, and qualifies at game `3`.  A nonzero explicit value is
honoured: with `quals_win_rate = 1/2` and draws `3/4`, games after the switch
are losses and the trial returns `0`. -/
theorem C2_quals_rate_zero_ignored :
    (sim_league 3 [1] 1 (some 0) 10 (fun _ => 0)).1 = 3 ∧
    (sim_league 3 [1] 1 (some (mkRat 1 2)) 10 (fun _ => mkRat 3 4)).1 = 0 := by
  refine ⟨by decide, by decide⟩

/-- C3 counterexample.  `sim_league` does not leave the caller's `stops`
collection unchanged: after the call the caller's list is `[1, 0]`, not the
supplied `[1]` — line 76 of the source appends `0` in place. -/
theorem C3_counterexample :
    (sim_league 2 [1] 1 none 1 (fun _ => 0)).2 = [1, 0] ∧
    (sim_league 2 [1] 1 none 1 (fun _ => 0)).2 ≠ [1] := by
  refine ⟨by decide, by decide⟩

/-- C4: the code at the failing input.  Supplying `quals_win_rate = 2` (out
of range) with `win_rate = 1/2` (in range) passes validation: line 136
re-tests `win_rate` instead of `quals_win_rate`, so no error is raised and
the out-of-range value reaches the simulation.  A genuinely out-of-range
`win_rate` is still rejected. -/
theorem C4_quals_range_check_missed :
    checkInputs { stars := 19, stop := [], win_rate := mkRat 1 2,
                  quals_win_rate := some 2, games_played := 200, runs := 1000 } =
      Except.ok { stars := 19, stops := [1, 2, 6, 14], win_rate := mkRat 1 2,
                  quals_win_rate := 2, games_played := 200, runs := 1000 } ∧
    checkInputs { stars := 19, stop := [], win_rate := 2,
                  quals_win_rate := some (mkRat 1 2), games_played := 200,
                  runs := 1000 } =
      Except.error "The value of win_rate must be between 0 and 1 (inclusive)." := by
  refine ⟨by rfl, by rfl⟩

/-- Any game number recorded by the loop is 1-based and bounded by the number
of iterations executed so far. -/
theorem leagueRun_result_bounds (stops : List ℤ) (qs stars : ℤ) (qwr wr : ℚ)
    (draws : ℕ → ℚ) :
    ∀ n g, (leagueRun stops qs stars qwr wr draws n).result = some g →
      1 ≤ g ∧ g ≤ n := by
  intro n
  induction n with
  | zero =>
    intro g hg
    exact absurd hg (by simp [leagueRun])
  | succ n ih =>
    intro g hg
    simp only [leagueRun] at hg
    set s := leagueRun stops qs stars qwr wr draws n with hs
    unfold leagueStep at hg
    by_cases h0 : s.result = none
    · rw [if_pos h0] at hg
      by_cases hw : s.win_rate > draws n
      · rw [if_pos hw] at hg
        by_cases h1 : s.total_stars + 1 = qs
        · rw [if_pos h1] at hg
          exact absurd hg (by simp)
        · rw [if_neg h1] at hg
          by_cases h2 : s.total_stars + 1 = stars
          · rw [if_pos h2] at hg
            simp at hg
            omega
          · rw [if_neg h2] at hg
            simp [h0] at hg
      · rw [if_neg hw] at hg
        by_cases hm : s.total_stars ∈ stops
        · rw [if_pos hm] at hg
          have := ih g hg
          omega
        · rw [if_neg hm] at hg
          simp at hg
          have := ih g hg
          omega
    · rw [if_neg h0] at hg
      have := ih g hg
      omega

/-- Step-invariant induction principle for the game loop. -/
theorem leagueRun_invariant (stops : List ℤ) (qs stars : ℤ) (qwr wr : ℚ)
    (draws : ℕ → ℚ) (P : LeagueState → Prop)
    (h0 : P { total_stars := 0, win_rate := wr, result := none })
    (hstep : ∀ k s, P s → P (leagueStep stops qs stars qwr (draws k) k s)) :
    ∀ n, P (leagueRun stops qs stars qwr wr draws n) := by
  intro n
  induction n with
  | zero => exact h0
  | succ n ih => exact hstep n _ ih

/-- When `0` is a stop, one loop step keeps the star counter non-negative: a
loss at `0` is protected and every other move changes the counter by at most
one towards a non-negative value. -/
theorem leagueStep_nonneg (stops : List ℤ) (qs stars : ℤ) (qwr c : ℚ) (game : ℕ)
    (s : LeagueState) (hmem : (0 : ℤ) ∈ stops) (h : 0 ≤ s.total_stars) :
    0 ≤ (leagueStep stops qs stars qwr c game s).total_stars := by
  unfold leagueStep
  by_cases h0 : s.result = none
  · rw [if_pos h0]
    by_cases hw : s.win_rate > c
    · rw [if_pos hw]
      by_cases h1 : s.total_stars + 1 = qs
      · rw [if_pos h1]
        show (0 : ℤ) ≤ s.total_stars + 1
        omega
      · rw [if_neg h1]
        by_cases h2 : s.total_stars + 1 = stars
        · rw [if_pos h2]
          show (0 : ℤ) ≤ s.total_stars + 1
          omega
        · rw [if_neg h2]
          show (0 : ℤ) ≤ s.total_stars + 1
          omega
    · rw [if_neg hw]
      by_cases hm : s.total_stars ∈ stops
      · rw [if_pos hm]
        exact h
      · rw [if_neg hm]
        have hne : s.total_stars ≠ 0 := fun hz => hm (hz ▸ hmem)
        show (0 : ℤ) ≤ s.total_stars - 1
        omega
  · rw [if_neg h0]
    exact h

/-- With the qualification stop a member of the stop list, one loop step never
takes the counter below it once the counter is at or above it. -/
theorem leagueStep_floor (stops : List ℤ) (qs stars : ℤ) (qwr c : ℚ) (game : ℕ)
    (s : LeagueState) (hmem : qs ∈ stops) (h : qs ≤ s.total_stars) :
    qs ≤ (leagueStep stops qs stars qwr c game s).total_stars := by
  unfold leagueStep
  by_cases h0 : s.result = none
  · rw [if_pos h0]
    by_cases hw : s.win_rate > c
    · rw [if_pos hw]
      by_cases h1 : s.total_stars + 1 = qs
      · rw [if_pos h1]
        show qs ≤ s.total_stars + 1
        omega
      · rw [if_neg h1]
        by_cases h2 : s.total_stars + 1 = stars
        · rw [if_pos h2]
          show qs ≤ s.total_stars + 1
          omega
        · rw [if_neg h2]
          show qs ≤ s.total_stars + 1
          omega
    · rw [if_neg hw]
      by_cases hm : s.total_stars ∈ stops
      · rw [if_pos hm]
        exact h
      · rw [if_neg hm]
        have hne : s.total_stars ≠ qs := fun he => hm (he ▸ hmem)
        show qs ≤ s.total_stars - 1
        omega
  · rw [if_neg h0]
    exact h

/-- `foldr max 0` over a list of integers is `0` or one of its members. -/
theorem foldr_max_zero_mem (l : List ℤ) : l.foldr max 0 = 0 ∨ l.foldr max 0 ∈ l := by
  induction l with
  | nil => exact Or.inl rfl
  | cons x xs ih =>
    rcases max_choice x (xs.foldr max 0) with h | h
    · right
      rw [List.foldr_cons, h]
      exact List.mem_cons_self x xs
    · rw [List.foldr_cons, h]
      rcases ih with h2 | h2
      · exact Or.inl h2
      · exact Or.inr (List.mem_cons_of_mem x h2)

/-- The qualification stop is itself a member of the stop list with `0`
adjoined — exactly the list the loop tests losses against. -/
theorem quals_stop_of_mem (stops : List ℤ) : quals_stop_of stops ∈ stops ++ [0] := by
  rcases foldr_max_zero_mem (stops ++ [0]) with h | h
  · rw [quals_stop_of, h]
    simp
  · exact h

/-- `foldr max 0` is non-negative. -/
theorem foldr_max_zero_nonneg (l : List ℤ) : 0 ≤ l.foldr max 0 := by
  induction l with
  | nil => exact le_refl 0
  | cons x xs ih => exact le_trans ih (le_max_right x _)

/-- The qualification stop is non-negative. -/
theorem quals_stop_of_nonneg (stops : List ℤ) : 0 ≤ quals_stop_of stops :=
  foldr_max_zero_nonneg _

/-- Once the counter is at or above the qualification stop it stays there for
the rest of the trial. -/
theorem leagueRun_floor_from (stops : List ℤ) (qs stars : ℤ) (qwr wr : ℚ)
    (draws : ℕ → ℚ) (hmem : qs ∈ stops) :
    ∀ n m, n ≤ m → qs ≤ (leagueRun stops qs stars qwr wr draws n).total_stars →
      qs ≤ (leagueRun stops qs stars qwr wr draws m).total_stars := by
  intro n m hnm h
  obtain ⟨d, rfl⟩ := Nat.le.dest hnm
  clear hnm
  induction d with
  | zero => exact h
  | succ d ih => exact leagueStep_floor stops qs stars qwr (draws (n + d)) (n + d) _ hmem ih

/-- The loop only ever reads the stop list through membership tests, so two
lists with the same members drive identical steps. -/
theorem leagueStep_congr (l₁ l₂ : List ℤ) (h : ∀ x : ℤ, x ∈ l₁ ↔ x ∈ l₂)
    (qs stars : ℤ) (qwr c : ℚ) (game : ℕ) (s : LeagueState) :
    leagueStep l₁ qs stars qwr c game s = leagueStep l₂ qs stars qwr c game s := by
  unfold leagueStep
  by_cases hm : s.total_stars ∈ l₁
  · have hm2 := (h _).mp hm
    simp [hm, hm2]
  · have hm2 : s.total_stars ∉ l₂ := fun hx => hm ((h _).mpr hx)
    simp [hm, hm2]

/-- Two stop lists with the same members yield identical loop states. -/
theorem leagueRun_congr (l₁ l₂ : List ℤ) (h : ∀ x : ℤ, x ∈ l₁ ↔ x ∈ l₂)
    (qs stars : ℤ) (qwr wr : ℚ) (draws : ℕ → ℚ) :
    ∀ n, leagueRun l₁ qs stars qwr wr draws n = leagueRun l₂ qs stars qwr wr draws n := by
  intro n
  induction n with
  | zero => rfl
  | succ n ih =>
    have e₁ : leagueRun l₁ qs stars qwr wr draws (n + 1) =
        leagueStep l₁ qs stars qwr (draws n) n (leagueRun l₁ qs stars qwr wr draws n) := rfl
    have e₂ : leagueRun l₂ qs stars qwr wr draws (n + 1) =
        leagueStep l₂ qs stars qwr (draws n) n (leagueRun l₂ qs stars qwr wr draws n) := rfl
    rw [e₁, e₂, ih]
    exact leagueStep_congr l₁ l₂ h qs stars qwr (draws n) n _

/-- C5: for every config with `maxGames ≥ 1` and every draw sequence,
`sim_league` returns a value in `{0} ∪ {1, ..., maxGames}` — never negative
(the return type is `ℕ`) and never exceeding the game budget. -/
theorem C5_result_range (stars : ℤ) (stops : List ℤ) (win_rate : ℚ)
    (quals_win_rate : Option ℚ) (games_played : ℕ) (draws : ℕ → ℚ)
    (hgames : 1 ≤ games_played) :
    (sim_league stars stops win_rate quals_win_rate games_played draws).1 = 0 ∨
    (1 ≤ (sim_league stars stops win_rate quals_win_rate games_played draws).1 ∧
      (sim_league stars stops win_rate quals_win_rate games_played draws).1 ≤
        games_played) := by
  rcases hres : (sim_league_trace stars stops win_rate quals_win_rate draws
      games_played).result with _ | g
  · left
    show (sim_league_trace stars stops win_rate quals_win_rate draws
        games_played).result.getD 0 = 0
    rw [hres]
    rfl
  · right
    have hb := leagueRun_result_bounds (stops ++ [0]) (quals_stop_of stops) stars
      (quals_rate_of win_rate quals_win_rate) win_rate draws games_played g hres
    have he : (sim_league stars stops win_rate quals_win_rate games_played draws).1 = g := by
      show (sim_league_trace stars stops win_rate quals_win_rate draws
          games_played).result.getD 0 = g
      rw [hres]
      rfl
    rw [he]
    exact hb

/-- C5 witness at a concrete config. -/
theorem C5_result_range_witness :
    (sim_league 3 [1] 1 none 10 (fun _ => 0)).1 = 0 ∨
    (1 ≤ (sim_league 3 [1] 1 none 10 (fun _ => 0)).1 ∧
      (sim_league 3 [1] 1 none 10 (fun _ => 0)).1 ≤ 10) :=
  C5_result_range 3 [1] 1 none 10 (fun _ => 0) (by decide)

/-- C9: when the caller violates `qualificationCheckpoint < targetStars`, the
core still terminates normally (the embedding is a total function, mirroring
the bounded `for` loop) and the result stays in `{0} ∪ {1, ..., maxGames}`. -/
theorem C9_violated_precondition_safe (stars : ℤ) (stops : List ℤ) (win_rate : ℚ)
    (quals_win_rate : Option ℚ) (games_played : ℕ) (draws : ℕ → ℚ)
    (hviol : stars ≤ quals_stop_of stops) :
    (sim_league stars stops win_rate quals_win_rate games_played draws).1 = 0 ∨
    (1 ≤ (sim_league stars stops win_rate quals_win_rate games_played draws).1 ∧
      (sim_league stars stops win_rate quals_win_rate games_played draws).1 ≤
        games_played) := by
  rcases hres : (sim_league_trace stars stops win_rate quals_win_rate draws
      games_played).result with _ | g
  · left
    show (sim_league_trace stars stops win_rate quals_win_rate draws
        games_played).result.getD 0 = 0
    rw [hres]
    rfl
  · right
    have hb := leagueRun_result_bounds (stops ++ [0]) (quals_stop_of stops) stars
      (quals_rate_of win_rate quals_win_rate) win_rate draws games_played g hres
    have he : (sim_league stars stops win_rate quals_win_rate games_played draws).1 = g := by
      show (sim_league_trace stars stops win_rate quals_win_rate draws
          games_played).result.getD 0 = g
      rw [hres]
      rfl
    rw [he]
    exact hb

/-- C9 witness: `stars = 1` with highest stop `2 ≥ 1`. -/
theorem C9_violated_precondition_safe_witness :
    (sim_league 1 [2] 1 none 2 (fun _ => 0)).1 = 0 ∨
    (1 ≤ (sim_league 1 [2] 1 none 2 (fun _ => 0)).1 ∧
      (sim_league 1 [2] 1 none 2 (fun _ => 0)).1 ≤ 2) :=
  C9_violated_precondition_safe 1 [2] 1 none 2 (fun _ => 0) (by decide)

/-- C6: the star counter never becomes negative during a trial — `0` is always
appended to the stop list, so a loss at counter value `0` leaves it at `0`;
the second conjunct states that protected loss explicitly. -/
theorem C6_counter_nonneg (stars : ℤ) (stops : List ℤ) (win_rate : ℚ)
    (quals_win_rate : Option ℚ) (draws : ℕ → ℚ)
    (hstops : ∀ s ∈ stops, (0 : ℤ) ≤ s) :
    (∀ k, 0 ≤ (sim_league_trace stars stops win_rate quals_win_rate draws k).total_stars) ∧
    (∀ k, (sim_league_trace stars stops win_rate quals_win_rate draws k).total_stars = 0 →
      ¬ (sim_league_trace stars stops win_rate quals_win_rate draws k).win_rate > draws k →
      (sim_league_trace stars stops win_rate quals_win_rate draws (k + 1)).total_stars
        = 0) := by
  have hmem : (0 : ℤ) ∈ stops ++ [0] := by simp
  constructor
  · intro k
    exact leagueRun_invariant (stops ++ [0]) (quals_stop_of stops) stars
      (quals_rate_of win_rate quals_win_rate) win_rate draws
      (fun s => 0 ≤ s.total_stars) (le_refl 0)
      (fun k s hs => leagueStep_nonneg _ _ _ _ _ _ _ hmem hs) k
  · intro k hz hl
    have e : sim_league_trace stars stops win_rate quals_win_rate draws (k + 1) =
        leagueStep (stops ++ [0]) (quals_stop_of stops) stars
          (quals_rate_of win_rate quals_win_rate) (draws k) k
          (sim_league_trace stars stops win_rate quals_win_rate draws k) := rfl
    rw [e]
    set s := sim_league_trace stars stops win_rate quals_win_rate draws k with hsdef
    by_cases h0 : s.result = none
    · have hms : s.total_stars ∈ stops ++ [0] := by
        rw [hz]
        exact hmem
      simp [leagueStep, h0, hl, hms, hz]
    · simp [leagueStep, h0, hz]

/-- C6 witness at a concrete config. -/
theorem C6_counter_nonneg_witness :
    (0 : ℤ) ≤ (sim_league_trace 3 [1] 1 none (fun _ => 0) 5).total_stars :=
  (C6_counter_nonneg 3 [1] 1 none (fun _ => 0) (by decide)).1 5

/-- C8: with `winRate = 0` and non-negative draws (as `random.random()`
produces), every game is a loss — a draw equal to the rate is a loss because
a win needs `win_rate > cutoff` strictly — so the trial returns `0` after
consuming exactly `maxGames` draws. -/
theorem C8_zero_win_rate (stars : ℤ) (stops : List ℤ) (quals_win_rate : Option ℚ)
    (games_played : ℕ) (draws : ℕ → ℚ) (hstars : 0 < stars)
    (hdraws : ∀ k, 0 ≤ draws k) :
    (sim_league stars stops 0 quals_win_rate games_played draws).1 = 0 ∧
    draws_consumed stars stops 0 quals_win_rate games_played draws = games_played := by
  have hinv : ∀ n, (sim_league_trace stars stops 0 quals_win_rate draws n).result = none ∧
      (sim_league_trace stars stops 0 quals_win_rate draws n).win_rate = 0 := by
    refine leagueRun_invariant (stops ++ [0]) (quals_stop_of stops) stars
      (quals_rate_of 0 quals_win_rate) 0 draws
      (fun s => s.result = none ∧ s.win_rate = 0) ⟨rfl, rfl⟩ ?_
    intro k s hs
    obtain ⟨h1, h2⟩ := hs
    have hw : ¬ s.win_rate > draws k := by
      rw [h2]
      exact not_lt.mpr (hdraws k)
    unfold leagueStep
    rw [if_pos h1, if_neg hw]
    by_cases hm : s.total_stars ∈ stops ++ [0]
    · rw [if_pos hm]
      exact ⟨h1, h2⟩
    · rw [if_neg hm]
      exact ⟨h1, h2⟩
  obtain ⟨h1, _⟩ := hinv games_played
  constructor
  · show (sim_league_trace stars stops 0 quals_win_rate draws
        games_played).result.getD 0 = 0
    rw [h1]
    rfl
  · unfold draws_consumed
    rw [h1]

/-- C8 witness at a concrete config. -/
theorem C8_zero_win_rate_witness :
    (sim_league 2 [1] 0 none 3 (fun _ => mkRat 1 2)).1 = 0 ∧
    draws_consumed 2 [1] 0 none 3 (fun _ => mkRat 1 2) = 3 :=
  C8_zero_win_rate 2 [1] none 3 (fun _ => mkRat 1 2) (by decide)
    (fun k => by show (0 : ℚ) ≤ mkRat 1 2; decide)

/-- C10: the highest checkpoint is an absorbing floor — once the counter is at
or above `quals_stop` it never drops below it again — and consequently the
win-branch rate switch (post-increment counter equal to `quals_stop`, which
requires the pre-increment counter to sit strictly below the floor) fires at
most once per trial. -/
theorem C10_quals_floor (stars : ℤ) (stops : List ℤ) (win_rate : ℚ)
    (quals_win_rate : Option ℚ) (draws : ℕ → ℚ) :
    (∀ k m, k ≤ m →
      quals_stop_of stops ≤
        (sim_league_trace stars stops win_rate quals_win_rate draws k).total_stars →
      quals_stop_of stops ≤
        (sim_league_trace stars stops win_rate quals_win_rate draws m).total_stars) ∧
    (∀ k m, rate_switch_fires stars stops win_rate quals_win_rate draws k →
      rate_switch_fires stars stops win_rate quals_win_rate draws m → k = m) := by
  have hmem := quals_stop_of_mem stops
  have floor := leagueRun_floor_from (stops ++ [0]) (quals_stop_of stops) stars
    (quals_rate_of win_rate quals_win_rate) win_rate draws hmem
  refine ⟨floor, ?_⟩
  have key : ∀ k m, k < m → rate_switch_fires stars stops win_rate quals_win_rate draws k →
      rate_switch_fires stars stops win_rate quals_win_rate draws m → False := by
    intro k m hkm hk hm
    unfold rate_switch_fires at hk hm
    obtain ⟨hres, hwin, hq⟩ := hk
    obtain ⟨hres2, hwin2, hq2⟩ := hm
    have e : sim_league_trace stars stops win_rate quals_win_rate draws (k + 1) =
        leagueStep (stops ++ [0]) (quals_stop_of stops) stars
          (quals_rate_of win_rate quals_win_rate) (draws k) k
          (sim_league_trace stars stops win_rate quals_win_rate draws k) := rfl
    have hk1 : (sim_league_trace stars stops win_rate quals_win_rate draws
        (k + 1)).total_stars = quals_stop_of stops := by
      rw [e]
      simp [leagueStep, hres, hwin, hq]
    have hfl : quals_stop_of stops ≤
        (sim_league_trace stars stops win_rate quals_win_rate draws m).total_stars :=
      floor (k + 1) m hkm (le_of_eq hk1.symm)
    omega
  intro k m h1 h2
  rcases lt_trichotomy k m with h | h | h
  · exact (key k m h h1 h2).elim
  · exact h
  · exact (key m k h h2 h1).elim

/-- C10 witness: with `stops = [1]` the floor `1` reached after one winning
game persists at game two. -/
theorem C10_quals_floor_witness :
    quals_stop_of [1] ≤ (sim_league_trace 3 [1] 1 none (fun _ => 0) 2).total_stars :=
  (C10_quals_floor 3 [1] 1 none (fun _ => 0)).1 1 2 (by decide) (by decide)

/-- C1 amended: in a win step both checks are evaluated against the same
post-increment counter value, but the checkpoint-switch check comes first and
takes priority — when the post-increment counter equals `quals_stop` the rate
switches and no return happens that game (even when `quals_stop = stars`);
the qualification check returns `game + 1` exactly when the post-increment
counter equals `stars` and differs from `quals_stop`. -/
theorem C1_win_step_order (stops : List ℤ) (quals_stop stars : ℤ)
    (quals_win_rate cutoff : ℚ) (game : ℕ) (s : LeagueState)
    (hres : s.result = none) (hwin : s.win_rate > cutoff) :
    (s.total_stars + 1 = quals_stop →
      leagueStep stops quals_stop stars quals_win_rate cutoff game s =
        { total_stars := s.total_stars + 1, win_rate := quals_win_rate,
          result := none }) ∧
    (s.total_stars + 1 ≠ quals_stop → s.total_stars + 1 = stars →
      leagueStep stops quals_stop stars quals_win_rate cutoff game s =
        { s with total_stars := s.total_stars + 1, result := some (game + 1) }) := by
  constructor
  · intro h1
    unfold leagueStep
    rw [if_pos hres, if_pos hwin, if_pos h1]
  · intro h1 h2
    unfold leagueStep
    rw [if_pos hres, if_pos hwin, if_neg h1, if_pos h2]

/-- C1 amended witness: a concrete win step at the checkpoint switches the
rate without returning. -/
theorem C1_win_step_order_witness :
    leagueStep [1, 0] 1 2 (mkRat 1 2) 0 0
        { total_stars := 0, win_rate := 1, result := none } =
      { total_stars := 1, win_rate := mkRat 1 2, result := none } :=
  (C1_win_step_order [1, 0] 1 2 (mkRat 1 2) 0 0
    { total_stars := 0, win_rate := 1, result := none } rfl (by decide)).1 (by decide)

/-- C3 amended: the one side effect of `sim_league` is appending `0` to the
caller's `stops` list; the returned game count is a pure function of the
arguments and the draw sequence, and the mutation is behaviourally harmless —
calling again with the mutated list returns the same game count, because the
loop reads the stops only through membership and the adjoined `0` is appended
anyway. -/
theorem C3_append_zero_behavior (stars : ℤ) (stops : List ℤ) (win_rate : ℚ)
    (quals_win_rate : Option ℚ) (games_played : ℕ) (draws : ℕ → ℚ) :
    (sim_league stars stops win_rate quals_win_rate games_played draws).2 =
      stops ++ [0] ∧
    (sim_league stars (stops ++ [0]) win_rate quals_win_rate games_played draws).1 =
      (sim_league stars stops win_rate quals_win_rate games_played draws).1 := by
  refine ⟨rfl, ?_⟩
  have hq : quals_stop_of (stops ++ [0]) = quals_stop_of stops := by
    simp [quals_stop_of, List.foldr_append]
  have hmm : ∀ x : ℤ, x ∈ (stops ++ [0]) ++ [0] ↔ x ∈ stops ++ [0] := by
    intro x
    simp only [List.mem_append, List.mem_singleton]
    tauto
  show (leagueRun ((stops ++ [0]) ++ [0]) (quals_stop_of (stops ++ [0])) stars
      (quals_rate_of win_rate quals_win_rate) win_rate draws games_played).result.getD 0 =
    (leagueRun (stops ++ [0]) (quals_stop_of stops) stars
      (quals_rate_of win_rate quals_win_rate) win_rate draws games_played).result.getD 0
  rw [hq, leagueRun_congr ((stops ++ [0]) ++ [0]) (stops ++ [0]) hmm (quals_stop_of stops)
    stars (quals_rate_of win_rate quals_win_rate) win_rate draws games_played]

/-- When the quals rate equals the normal rate, the current win rate never
changes: the switch assignment is a no-op. -/
theorem leagueRun_win_rate_const (stops : List ℤ) (qs stars : ℤ) (wr : ℚ)
    (draws : ℕ → ℚ) (n : ℕ) :
    (leagueRun stops qs stars wr wr draws n).win_rate = wr := by
  refine leagueRun_invariant stops qs stars wr wr draws (fun s => s.win_rate = wr) rfl ?_ n
  intro k s hs
  unfold leagueStep
  by_cases h0 : s.result = none
  · rw [if_pos h0]
    by_cases hw : s.win_rate > draws k
    · rw [if_pos hw]
      by_cases h1 : s.total_stars + 1 = qs
      · rw [if_pos h1]
      · rw [if_neg h1]
        by_cases h2 : s.total_stars + 1 = stars
        · rw [if_pos h2]
          exact hs
        · rw [if_neg h2]
          exact hs
    · rw [if_neg hw]
      by_cases hm : s.total_stars ∈ stops
      · rw [if_pos hm]
        exact hs
      · rw [if_neg hm]
        exact hs
  · rw [if_neg h0]
    exact hs

/-- A step from a still-running state either keeps the loop running or records
the current game number. -/
theorem leagueStep_result_of_none (stops : List ℤ) (qs stars : ℤ) (qwr c : ℚ)
    (game : ℕ) (s : LeagueState) (h0 : s.result = none) :
    (leagueStep stops qs stars qwr c game s).result = none ∨
    (leagueStep stops qs stars qwr c game s).result = some (game + 1) := by
  unfold leagueStep
  rw [if_pos h0]
  by_cases hw : s.win_rate > c
  · rw [if_pos hw]
    by_cases h1 : s.total_stars + 1 = qs
    · rw [if_pos h1]
      exact Or.inl rfl
    · rw [if_neg h1]
      by_cases h2 : s.total_stars + 1 = stars
      · rw [if_pos h2]
        exact Or.inr rfl
      · rw [if_neg h2]
        exact Or.inl h0
  · rw [if_neg hw]
    by_cases hm : s.total_stars ∈ stops
    · rw [if_pos hm]
      exact Or.inl h0
    · rw [if_neg hm]
      exact Or.inl h0

/-- Coupling along a fixed draw sequence.  With the rate switch a no-op (quals
rate equal to the normal rate) and the qualification stop strictly below the
target, the run at the larger rate `r2` dominates the run at the smaller rate
`r1 ≤ r2`: while the `r2`-run has not returned, neither has the `r1`-run, its
counter is no larger, and the `r2`-counter is still below the target; and
once the `r1`-run has returned at game `g1`, the `r2`-run has returned at
some game `g2 ≤ g1`. -/
theorem leagueRun_coupling (stops : List ℤ) (qs stars : ℤ) (r1 r2 : ℚ)
    (draws : ℕ → ℚ) (h12 : r1 ≤ r2) (hqs0 : 0 ≤ qs) (hq : qs < stars) :
    ∀ n,
      ((leagueRun stops qs stars r2 r2 draws n).result = none →
        (leagueRun stops qs stars r1 r1 draws n).result = none ∧
        (leagueRun stops qs stars r1 r1 draws n).total_stars ≤
          (leagueRun stops qs stars r2 r2 draws n).total_stars ∧
        (leagueRun stops qs stars r2 r2 draws n).total_stars < stars) ∧
      (∀ g1, (leagueRun stops qs stars r1 r1 draws n).result = some g1 →
        ∃ g2, (leagueRun stops qs stars r2 r2 draws n).result = some g2 ∧ g2 ≤ g1) := by
  intro n
  induction n with
  | zero =>
    constructor
    · intro _
      refine ⟨rfl, le_refl 0, ?_⟩
      show (0 : ℤ) < stars
      omega
    · intro g1 h
      exact absurd h (by simp [leagueRun])
  | succ n ih =>
    obtain ⟨ih1, ih2⟩ := ih
    have e1 : leagueRun stops qs stars r1 r1 draws (n + 1) =
        leagueStep stops qs stars r1 (draws n) n
          (leagueRun stops qs stars r1 r1 draws n) := rfl
    have e2 : leagueRun stops qs stars r2 r2 draws (n + 1) =
        leagueStep stops qs stars r2 (draws n) n
          (leagueRun stops qs stars r2 r2 draws n) := rfl
    set S1 := leagueRun stops qs stars r1 r1 draws n with hS1
    set S2 := leagueRun stops qs stars r2 r2 draws n with hS2
    have hw1 : S1.win_rate = r1 := leagueRun_win_rate_const stops qs stars r1 draws n
    have hw2 : S2.win_rate = r2 := leagueRun_win_rate_const stops qs stars r2 draws n
    rw [e1, e2]
    by_cases hres2 : S2.result = none
    case neg =>
      have f2 : leagueStep stops qs stars r2 (draws n) n S2 = S2 := by
        unfold leagueStep
        rw [if_neg hres2]
      rw [f2]
      obtain ⟨g2, hg2⟩ : ∃ g2, S2.result = some g2 := by
        rcases hr : S2.result with _ | g2
        · exact absurd hr hres2
        · exact ⟨g2, rfl⟩
      constructor
      · intro hnone
        rw [hnone] at hg2
        exact absurd hg2 (by simp)
      · intro g1 hg1
        by_cases hres1 : S1.result = none
        · have hb := leagueRun_result_bounds stops qs stars r2 r2 draws n g2 (hS2 ▸ hg2)
          rcases leagueStep_result_of_none stops qs stars r1 (draws n) n S1 hres1 with
            hn | hsome
          · rw [hn] at hg1
            exact absurd hg1 (by simp)
          · rw [hsome] at hg1
            simp only [Option.some.injEq] at hg1
            exact ⟨g2, hg2, by omega⟩
        · have f1 : leagueStep stops qs stars r1 (draws n) n S1 = S1 := by
            unfold leagueStep
            rw [if_neg hres1]
          rw [f1] at hg1
          exact ih2 g1 hg1
    case pos =>
      obtain ⟨h1none, hle, hlt⟩ := ih1 hres2
      by_cases hc2 : r2 > draws n
      · have hW2 : S2.win_rate > draws n := by
          rw [hw2]
          exact hc2
        by_cases hc1 : r1 > draws n
        · -- both runs win this game
          have hW1 : S1.win_rate > draws n := by
            rw [hw1]
            exact hc1
          by_cases h2q : S2.total_stars + 1 = qs
          · -- larger run hits the quals stop: switch, no return
            have f2 : leagueStep stops qs stars r2 (draws n) n S2 =
                { total_stars := S2.total_stars + 1, win_rate := r2, result := none } := by
              unfold leagueStep
              rw [if_pos hres2, if_pos hW2, if_pos h2q]
            have h1s : S1.total_stars + 1 ≠ stars := by omega
            have f1 : (leagueStep stops qs stars r1 (draws n) n S1).result = none ∧
                (leagueStep stops qs stars r1 (draws n) n S1).total_stars =
                  S1.total_stars + 1 := by
              unfold leagueStep
              rw [if_pos h1none, if_pos hW1]
              by_cases h1q : S1.total_stars + 1 = qs
              · rw [if_pos h1q]
                exact ⟨rfl, rfl⟩
              · rw [if_neg h1q, if_neg h1s]
                exact ⟨h1none, rfl⟩
            constructor
            · intro _
              refine ⟨f1.1, ?_, ?_⟩
              · rw [f1.2, f2]
                show S1.total_stars + 1 ≤ S2.total_stars + 1
                omega
              · rw [f2]
                show S2.total_stars + 1 < stars
                omega
            · intro g1 hg1
              rw [f1.1] at hg1
              exact absurd hg1 (by simp)
          · by_cases h2s : S2.total_stars + 1 = stars
            · -- larger run qualifies right now at game n + 1
              have f2 : leagueStep stops qs stars r2 (draws n) n S2 =
                  { S2 with
                    total_stars := S2.total_stars + 1, result := some (n + 1) } := by
                unfold leagueStep
                rw [if_pos hres2, if_pos hW2, if_neg h2q, if_pos h2s]
              constructor
              · intro hnone
                rw [f2] at hnone
                exact absurd hnone (by simp)
              · intro g1 hg1
                refine ⟨n + 1, by rw [f2], ?_⟩
                rcases leagueStep_result_of_none stops qs stars r1 (draws n) n S1 h1none
                  with hn | hsome
                · rw [hn] at hg1
                  exact absurd hg1 (by simp)
                · rw [hsome] at hg1
                  simp only [Option.some.injEq] at hg1
                  omega
            · -- plain win for the larger run, still below the target
              have f2 : leagueStep stops qs stars r2 (draws n) n S2 =
                  { S2 with total_stars := S2.total_stars + 1 } := by
                unfold leagueStep
                rw [if_pos hres2, if_pos hW2, if_neg h2q, if_neg h2s]
              have h1s : S1.total_stars + 1 ≠ stars := by omega
              have f1 : (leagueStep stops qs stars r1 (draws n) n S1).result = none ∧
                  (leagueStep stops qs stars r1 (draws n) n S1).total_stars =
                    S1.total_stars + 1 := by
                unfold leagueStep
                rw [if_pos h1none, if_pos hW1]
                by_cases h1q : S1.total_stars + 1 = qs
                · rw [if_pos h1q]
                  exact ⟨rfl, rfl⟩
                · rw [if_neg h1q, if_neg h1s]
                  exact ⟨h1none, rfl⟩
              constructor
              · intro _
                refine ⟨f1.1, ?_, ?_⟩
                · rw [f1.2, f2]
                  show S1.total_stars + 1 ≤ S2.total_stars + 1
                  omega
                · rw [f2]
                  show S2.total_stars + 1 < stars
                  omega
              · intro g1 hg1
                rw [f1.1] at hg1
                exact absurd hg1 (by simp)
        · -- larger run wins, smaller run loses
          have hW1 : ¬ S1.win_rate > draws n := by
            rw [hw1]
            exact hc1
          have f1 : (leagueStep stops qs stars r1 (draws n) n S1).result = none ∧
              (leagueStep stops qs stars r1 (draws n) n S1).total_stars ≤
                S1.total_stars := by
            unfold leagueStep
            rw [if_pos h1none, if_neg hW1]
            by_cases hm : S1.total_stars ∈ stops
            · rw [if_pos hm]
              exact ⟨h1none, le_refl _⟩
            · rw [if_neg hm]
              refine ⟨h1none, ?_⟩
              show S1.total_stars - 1 ≤ S1.total_stars
              omega
          by_cases h2q : S2.total_stars + 1 = qs
          · have f2 : leagueStep stops qs stars r2 (draws n) n S2 =
                { total_stars := S2.total_stars + 1, win_rate := r2, result := none } := by
              unfold leagueStep
              rw [if_pos hres2, if_pos hW2, if_pos h2q]
            constructor
            · intro _
              refine ⟨f1.1, ?_, ?_⟩
              · rw [f2]
                show (leagueStep stops qs stars r1 (draws n) n S1).total_stars ≤
                  S2.total_stars + 1
                have := f1.2
                omega
              · rw [f2]
                show S2.total_stars + 1 < stars
                omega
            · intro g1 hg1
              rw [f1.1] at hg1
              exact absurd hg1 (by simp)
          · by_cases h2s : S2.total_stars + 1 = stars
            · have f2 : leagueStep stops qs stars r2 (draws n) n S2 =
                  { S2 with
                    total_stars := S2.total_stars + 1, result := some (n + 1) } := by
                unfold leagueStep
                rw [if_pos hres2, if_pos hW2, if_neg h2q, if_pos h2s]
              constructor
              · intro hnone
                rw [f2] at hnone
                exact absurd hnone (by simp)
              · intro g1 hg1
                rw [f1.1] at hg1
                exact absurd hg1 (by simp)
            · have f2 : leagueStep stops qs stars r2 (draws n) n S2 =
                  { S2 with total_stars := S2.total_stars + 1 } := by
                unfold leagueStep
                rw [if_pos hres2, if_pos hW2, if_neg h2q, if_neg h2s]
              constructor
              · intro _
                refine ⟨f1.1, ?_, ?_⟩
                · rw [f2]
                  show (leagueStep stops qs stars r1 (draws n) n S1).total_stars ≤
                    S2.total_stars + 1
                  have := f1.2
                  omega
                · rw [f2]
                  show S2.total_stars + 1 < stars
                  omega
              · intro g1 hg1
                rw [f1.1] at hg1
                exact absurd hg1 (by simp)
      · -- both runs lose this game
        have hc1 : ¬ r1 > draws n := fun h => hc2 (lt_of_lt_of_le h h12)
        have hW1 : ¬ S1.win_rate > draws n := by
          rw [hw1]
          exact hc1
        have hW2 : ¬ S2.win_rate > draws n := by
          rw [hw2]
          exact hc2
        by_cases hm2 : S2.total_stars ∈ stops
        · -- larger run protected at a stop
          have f2 : leagueStep stops qs stars r2 (draws n) n S2 = S2 := by
            unfold leagueStep
            rw [if_pos hres2, if_neg hW2, if_pos hm2]
          have f1 : (leagueStep stops qs stars r1 (draws n) n S1).result = none ∧
              (leagueStep stops qs stars r1 (draws n) n S1).total_stars ≤
                S1.total_stars := by
            unfold leagueStep
            rw [if_pos h1none, if_neg hW1]
            by_cases hm : S1.total_stars ∈ stops
            · rw [if_pos hm]
              exact ⟨h1none, le_refl _⟩
            · rw [if_neg hm]
              refine ⟨h1none, ?_⟩
              show S1.total_stars - 1 ≤ S1.total_stars
              omega
          constructor
          · intro _
            rw [f2]
            exact ⟨f1.1, le_trans f1.2 hle, hlt⟩
          · intro g1 hg1
            rw [f1.1] at hg1
            exact absurd hg1 (by simp)
        · -- larger run decrements
          have f2 : leagueStep stops qs stars r2 (draws n) n S2 =
              { S2 with total_stars := S2.total_stars - 1 } := by
            unfold leagueStep
            rw [if_pos hres2, if_neg hW2, if_neg hm2]
          by_cases hm1 : S1.total_stars ∈ stops
          · -- smaller run protected: its counter is strictly below the larger
            have hne : S1.total_stars ≠ S2.total_stars := fun he => hm2 (he ▸ hm1)
            have f1 : leagueStep stops qs stars r1 (draws n) n S1 = S1 := by
              unfold leagueStep
              rw [if_pos h1none, if_neg hW1, if_pos hm1]
            constructor
            · intro _
              rw [f1, f2]
              refine ⟨h1none, ?_, ?_⟩
              · show S1.total_stars ≤ S2.total_stars - 1
                omega
              · show S2.total_stars - 1 < stars
                omega
            · intro g1 hg1
              rw [f1] at hg1
              rw [h1none] at hg1
              exact absurd hg1 (by simp)
          · have f1 : leagueStep stops qs stars r1 (draws n) n S1 =
                { S1 with total_stars := S1.total_stars - 1 } := by
              unfold leagueStep
              rw [if_pos h1none, if_neg hW1, if_neg hm1]
            constructor
            · intro _
              rw [f1, f2]
              refine ⟨h1none, ?_, ?_⟩
              · show S1.total_stars - 1 ≤ S2.total_stars - 1
                omega
              · show S2.total_stars - 1 < stars
                omega
            · intro g1 hg1
              rw [f1] at hg1
              have hg1x : S1.result = some g1 := hg1
              rw [h1none] at hg1x
              exact absurd hg1x (by simp)

/-- C7: monotonicity in the win rate along a fixed draw sequence.  With
`qualsWinRate` unspecified (so the switch is a no-op) and the qualification
checkpoint strictly below the target, if the trial at rate `r1` qualifies
then the trial at any rate `r2 ≥ r1` qualifies at a game number no larger;
the statistical claim — the expected qualification proportion does not
decrease in the win rate — follows by averaging this pointwise fact over the
draw sequences. -/
theorem C7_win_rate_monotone (stars : ℤ) (stops : List ℤ) (r1 r2 : ℚ)
    (games_played : ℕ) (draws : ℕ → ℚ) (hr0 : 0 ≤ r1) (h12 : r1 ≤ r2) (hr1 : r2 ≤ 1)
    (hq : quals_stop_of stops < stars)
    (hne : (sim_league stars stops r1 none games_played draws).1 ≠ 0) :
    (sim_league stars stops r2 none games_played draws).1 ≠ 0 ∧
    (sim_league stars stops r2 none games_played draws).1 ≤
      (sim_league stars stops r1 none games_played draws).1 := by
  have hcoup := leagueRun_coupling (stops ++ [0]) (quals_stop_of stops) stars r1 r2 draws
    h12 (quals_stop_of_nonneg stops) hq games_played
  have e1 : (sim_league stars stops r1 none games_played draws).1 =
      (leagueRun (stops ++ [0]) (quals_stop_of stops) stars r1 r1 draws
        games_played).result.getD 0 := rfl
  have e2 : (sim_league stars stops r2 none games_played draws).1 =
      (leagueRun (stops ++ [0]) (quals_stop_of stops) stars r2 r2 draws
        games_played).result.getD 0 := rfl
  rcases hr : (leagueRun (stops ++ [0]) (quals_stop_of stops) stars r1 r1 draws
      games_played).result with _ | g1
  · rw [e1, hr] at hne
    exact absurd rfl hne
  · obtain ⟨g2, hg2, hgle⟩ := hcoup.2 g1 hr
    have hb := leagueRun_result_bounds (stops ++ [0]) (quals_stop_of stops) stars r2 r2
      draws games_played g2 hg2
    constructor
    · rw [e2, hg2]
      simp only [Option.getD_some]
      omega
    · rw [e1, e2, hr, hg2]
      simpa using hgle

/-- C7 witness at a concrete pair of rates. -/
theorem C7_win_rate_monotone_witness :
    (sim_league 1 [] 1 none 1 (fun _ => 0)).1 ≠ 0 ∧
    (sim_league 1 [] 1 none 1 (fun _ => 0)).1 ≤
      (sim_league 1 [] (mkRat 1 2) none 1 (fun _ => 0)).1 :=
  C7_win_rate_monotone 1 [] (mkRat 1 2) 1 1 (fun _ => 0) (by decide) (by decide)
    (by decide) (by decide) (by decide)

end SimRanked
